import Mathlib

/-!
Verification development for the any.io e-commerce backend (NestJS/TypeORM).
The definitions below are a shallow embedding of the service layer:
`ProductsService` and `ReviewsService` (src/products, src/reviews),
the `OrderByTypePipe` validation pipe, and the cache facade they use.
Stateful code is modelled by explicit state passing over a `St` record
(database tables, cache entries, current clock); JavaScript exceptions are
modelled with `Except`, a thrown `TypeError` from dereferencing
null/undefined is the distinguished `Err.nullDeref`.
-/

/-- Error kinds surfaced by the services: the four HTTP exception classes
used in the source plus `nullDeref`, modelling a JavaScript `TypeError`
raised by dereferencing null/undefined (not an HTTP error). -/
inductive Err where
  | badRequest
  | unauthorized
  | forbidden
  | internalServerError
  | nullDeref
  deriving DecidableEq, Repr

/-- Sort direction after the `toUpperCase()` cast in the query builders. -/
inductive Dir where
  | asc
  | desc
  deriving DecidableEq, Repr

/-- The `orderByType.toUpperCase() as 'ASC' | 'DESC'` cast: an uppercase
comparison against DESC, anything else behaving as ascending. -/
def parseDir (s : String) : Dir :=
  if s.toUpper = "DESC" then Dir.desc else Dir.asc

/-- Boolean comparison for one sort key under a direction. -/
def dirLe : Dir → Nat → Nat → Bool
  | Dir.asc, x, y => decide (x ≤ y)
  | Dir.desc, x, y => decide (y ≤ x)

theorem dirLe_total (d : Dir) (x y : Nat) : dirLe d x y = true ∨ dirLe d y x = true := by
  cases d <;> simp [dirLe] <;> omega

theorem dirLe_trans (d : Dir) (x y z : Nat) (h1 : dirLe d x y = true)
    (h2 : dirLe d y z = true) : dirLe d x z = true := by
  cases d <;> simp [dirLe] at * <;> omega

/-- Product row: id, price, category and company foreign keys
(src/products/entities/product.entity). -/
structure Product where
  id : Nat
  price : Nat
  categoryId : Nat
  companyId : Nat
  deriving DecidableEq, Repr

/-- Review row: id, product foreign key, authoring user id, creation
timestamp and a rating payload (src/reviews/entities/review.entity). -/
structure Review where
  id : Nat
  productId : Nat
  userId : Nat
  createdAt : Nat
  rating : Nat
  deriving DecidableEq, Repr

/-- Category row: id and title (src/unnamed/part_001). -/
structure Category where
  id : Nat
  title : String
  deriving DecidableEq, Repr

/-- Company row: id and owning user id (spec section 3: Company: id,
userId (owner); the company entity file is not under src). -/
structure Company where
  id : Nat
  userId : Nat
  deriving DecidableEq, Repr

/-- The relational store: one list per table. -/
structure DB where
  products : List Product
  reviews : List Review
  categories : List Category
  companies : List Company
  deriving DecidableEq, Repr

/-- Sortable product columns reachable through the dynamic
`product.$\x7borderBy\x7d` interpolation; the embedding enumerates the numeric
columns the listing queries sort on. -/
inductive ProductColumn where
  | id
  | price
  deriving DecidableEq, Repr

/-- Column selector for a `ProductColumn`. -/
def ProductColumn.sel : ProductColumn → Product → Nat
  | ProductColumn.id, p => p.id
  | ProductColumn.price, p => p.price

/-- Column name, as interpolated into the SQL text and cache key. -/
def ProductColumn.name : ProductColumn → String
  | ProductColumn.id => "id"
  | ProductColumn.price => "price"

/- ### Generic comparator-based sorting (ORDER BY semantics) -/

/-- Insert an element in front of the first list element it compares
less-or-equal to; the list model of an ORDER BY comparator. -/
def orderedInsertBy (le : α → α → Bool) (a : α) : List α → List α
  | [] => [a]
  | b :: l => if le a b then a :: b :: l else b :: orderedInsertBy le a l

/-- Comparator-based insertion sort, the embedding of a SQL ORDER BY:
any total, transitive comparator yields a list pairwise-ordered by it. -/
def insertionSortBy (le : α → α → Bool) : List α → List α
  | [] => []
  | a :: l => orderedInsertBy le a (insertionSortBy le l)

theorem mem_orderedInsertBy (le : α → α → Bool) (a x : α) (l : List α) :
    x ∈ orderedInsertBy le a l ↔ x = a ∨ x ∈ l := by
  induction l with
  | nil => simp [orderedInsertBy]
  | cons b l ih =>
    by_cases h : le a b = true
    · simp [orderedInsertBy, h]
    · simp only [orderedInsertBy, h, if_neg, Bool.not_eq_true, if_false, List.mem_cons, ih]
      tauto

theorem mem_insertionSortBy (le : α → α → Bool) (x : α) (l : List α) :
    x ∈ insertionSortBy le l ↔ x ∈ l := by
  induction l with
  | nil => simp [insertionSortBy]
  | cons a l ih => simp [insertionSortBy, mem_orderedInsertBy, ih]

theorem pairwise_orderedInsertBy (le : α → α → Bool)
    (htot : ∀ a b, le a b = true ∨ le b a = true)
    (htrans : ∀ a b c, le a b = true → le b c = true → le a c = true)
    (a : α) (l : List α) (h : l.Pairwise (fun x y => le x y = true)) :
    (orderedInsertBy le a l).Pairwise (fun x y => le x y = true) := by
  induction l with
  | nil => simp [orderedInsertBy]
  | cons b l ih =>
    rw [List.pairwise_cons] at h
    obtain ⟨hb, hl⟩ := h
    by_cases hab : le a b = true
    · simp only [orderedInsertBy, hab, if_true]
      rw [List.pairwise_cons]
      refine ⟨?_, by rw [List.pairwise_cons]; exact ⟨hb, hl⟩⟩
      intro x hx
      rcases List.mem_cons.mp hx with hxb | hxl
      · exact hxb ▸ hab
      · exact htrans a b x hab (hb x hxl)
    · have hba : le b a = true := (htot a b).resolve_left hab
      simp only [orderedInsertBy, hab, if_false, Bool.false_eq_true]
      rw [List.pairwise_cons]
      refine ⟨?_, ih hl⟩
      intro x hx
      rcases (mem_orderedInsertBy le a x l).mp hx with hxa | hxl
      · exact hxa ▸ hba
      · exact hb x hxl

theorem pairwise_insertionSortBy (le : α → α → Bool)
    (htot : ∀ a b, le a b = true ∨ le b a = true)
    (htrans : ∀ a b c, le a b = true → le b c = true → le a c = true)
    (l : List α) :
    (insertionSortBy le l).Pairwise (fun x y => le x y = true) := by
  induction l with
  | nil => simp [insertionSortBy]
  | cons a l ih => exact pairwise_orderedInsertBy le htot htrans a _ ih

/-- OFFSET/LIMIT pagination: skip `limit * page` rows, take `limit`. -/
def paginate (limit page : Nat) (l : List α) : List α :=
  (l.drop (limit * page)).take limit

theorem paginate_sublist (limit page : Nat) (l : List α) :
    (paginate limit page l).Sublist l :=
  (List.take_sublist _ _).trans (List.drop_sublist _ _)

theorem pairwise_paginate {R : α → α → Prop} (limit page : Nat) (l : List α)
    (h : l.Pairwise R) : (paginate limit page l).Pairwise R :=
  h.sublist (paginate_sublist limit page l)

theorem mem_paginate (limit page : Nat) (l : List α) (x : α)
    (h : x ∈ paginate limit page l) : x ∈ l :=
  (paginate_sublist limit page l).subset h

/- ### Cache facade -/

/-- A value stored in the cache: the four shapes the services store. -/
inductive CacheVal where
  | products (l : List Product)
  | product (p : Product)
  | reviews (l : List Review)
  | review (r : Review)
  deriving DecidableEq, Repr

/-- One cache entry: key, value, absolute expiry instant. -/
structure CacheEntry where
  key : String
  val : CacheVal
  expiry : Nat
  deriving DecidableEq, Repr

/-- The key-value cache store. -/
def Cache := List CacheEntry

instance : DecidableEq Cache := fun a b => List.hasDecEq a b

/-- Service state: database, cache, and the current clock instant. -/
structure St where
  db : DB
  cache : Cache
  now : Nat
  deriving DecidableEq

/-- `cache.get(key)`: the stored value if present and not yet expired. -/
def cacheGet (c : Cache) (now : Nat) (k : String) : Option CacheVal :=
  match List.find? (fun e => e.key = k) c with
  | some e => if now < e.expiry then some e.val else none
  | none => none

/-- `cache.set(key, value, ttl)`: overwrite the key with the value,
expiring `ttl` after the current instant. -/
def cacheSet (c : Cache) (now : Nat) (k : String) (v : CacheVal) (ttl : Nat) : Cache :=
  { key := k, val := v, expiry := now + ttl } :: List.filter (fun e => ¬ e.key = k) c

theorem cacheGet_cacheSet_same (c : Cache) (now : Nat) (k : String) (v : CacheVal)
    (ttl t : Nat) :
    cacheGet (cacheSet c now k v ttl) t k = if t < now + ttl then some v else none := by
  simp [cacheGet, cacheSet, List.find?]

/-- Typed read of a cached product list, the `cache.get<Product[]>` call. -/
def cacheGetProducts (c : Cache) (now : Nat) (k : String) : Option (List Product) :=
  match cacheGet c now k with
  | some (CacheVal.products l) => some l
  | _ => none

/-- Typed read of a cached single product. -/
def cacheGetProduct (c : Cache) (now : Nat) (k : String) : Option Product :=
  match cacheGet c now k with
  | some (CacheVal.product p) => some p
  | _ => none

/-- Typed read of a cached review list. -/
def cacheGetReviews (c : Cache) (now : Nat) (k : String) : Option (List Review) :=
  match cacheGet c now k with
  | some (CacheVal.reviews l) => some l
  | _ => none

/-- Typed read of a cached single review. -/
def cacheGetReview (c : Cache) (now : Nat) (k : String) : Option Review :=
  match cacheGet c now k with
  | some (CacheVal.review r) => some r
  | _ => none

/-- Modelled from the spec: the `FOUR_MINUTES` TTL constant lives in
src/common/constants, which is absent from src/; per sections 4.2 and 8 it
is the fixed cache TTL, four minutes expressed in cache-manager
milliseconds. -/
def FOUR_MINUTES : Nat := 240000

/-- Render an optional id the way JavaScript template interpolation
renders a possibly-undefined number. -/
def optNatStr : Option Nat → String
  | none => "undefined"
  | some n => toString n

/-- Modelled from the spec: `getProductsCacheKey`
(src/common/utils/get-cache-key) is absent from src/; per section 4.1 it
is a deterministic pure function of every listing parameter, identical
parameters giving identical keys and any difference changing the key. -/
def getProductsCacheKey (orderByType : Option String) (orderBy : Option ProductColumn)
    (limit page minPrice maxPrice : Nat) (categoryId : Option Nat)
    (lastCategories : Option (List Nat)) : String :=
  "products:" ++
    (match orderByType with
      | none => "undefined"
      | some s => s) ++ ":" ++
    (match orderBy with
      | none => "undefined"
      | some c => c.name) ++ ":" ++
    toString limit ++ ":" ++ toString page ++ ":" ++
    toString minPrice ++ ":" ++ toString maxPrice ++ ":" ++
    optNatStr categoryId ++ ":" ++
    (match lastCategories with
      | none => "undefined"
      | some l => String.intercalate "," (l.map toString))

/-- Modelled from the spec: `getProductCacheKey`
(src/common/utils/get-cache-key) is absent from src/; deterministic key
for a single product id. -/
def getProductCacheKey (productId : Nat) : String :=
  "product:" ++ toString productId

/-- Modelled from the spec: `getReviewCacheKey`
(src/common/utils/get-cache-key) is absent from src/; deterministic key
for a single review id. -/
def getReviewCacheKey (reviewId : Nat) : String :=
  "review:" ++ toString reviewId

/-- Modelled from the spec: `getReviewsCacheKey`
(src/common/utils/get-cache-key) is absent from src/; deterministic key
over the review listing parameters. -/
def getReviewsCacheKey (productId : Nat) (orderByType : Option String)
    (orderBy : Option ProductColumn) (limit page : Nat) : String :=
  "reviews:" ++ toString productId ++ ":" ++
    (match orderByType with
      | none => "undefined"
      | some s => s) ++ ":" ++
    (match orderBy with
      | none => "undefined"
      | some c => c.name) ++ ":" ++
    toString limit ++ ":" ++ toString page

/- ### Collaborator services (entity repositories not under src/) -/

/-- Modelled from the spec: `CategoriesService.findById`
(src/categories/services) is absent from src/; per section 4.2 it
resolves a category by id, null when absent. -/
def CategoriesService.findById (db : DB) (id : Nat) : Option Category :=
  List.find? (fun c => c.id = id) db.categories

/-- Modelled from the spec: `CompaniesService.findById`
(src/companies/services) is absent from src/; resolves a company (with
its owner user relation, section 3: Company: id, userId) by id. -/
def CompaniesService.findById (db : DB) (id : Nat) : Option Company :=
  List.find? (fun c => c.id = id) db.companies

/-- Modelled from the spec: `CompaniesService.findByUserId`
(src/companies/services) is absent from src/; resolves the company whose
owner user id is the given id, null when the user owns none. -/
def CompaniesService.findByUserId (db : DB) (userId : Nat) : Option Company :=
  List.find? (fun c => c.userId = userId) db.companies

/- ### DTOs -/

/-- FindAllProductsQueryDto (src/products/dtos/find-all-query.dto):
every field optional; TS default parameters are applied at the
destructuring in `findAll`. -/
structure FindAllProductsQueryDto where
  orderBy : Option ProductColumn
  orderByType : Option String
  limit : Option Nat
  minPrice : Option Nat
  maxPrice : Option Nat
  categoryId : Option Nat
  lastCategories : Option (List Nat)
  page : Option Nat
  deriving DecidableEq, Repr

/-- FindAllReviewsQueryDto (src/reviews/dtos/find-all.query.dto). -/
structure FindAllReviewsQueryDto where
  orderBy : Option ProductColumn
  orderByType : Option String
  limit : Option Nat
  page : Option Nat
  productId : Nat
  deriving DecidableEq, Repr

/-- CreateProductDto: payload of a product insert (price and the
category foreign key are the fields the claims exercise). -/
structure CreateProductDto where
  price : Nat
  categoryId : Nat
  deriving DecidableEq, Repr

/-- UpdateCompanyDto, the (oddly typed) patch payload `update` takes in
the source; modelled as an optional new price. -/
structure UpdateCompanyDto where
  price : Option Nat
  deriving DecidableEq, Repr

/-- Apply a product patch to a row, `productsRepo.update` semantics. -/
def applyProductUpdate (dto : UpdateCompanyDto) (p : Product) : Product :=
  { p with price := dto.price.getD p.price }

/-- UpdateReviewDto: patch payload for a review. -/
structure UpdateReviewDto where
  rating : Option Nat
  deriving DecidableEq, Repr

/-- Apply a review patch to a row, `reviewsRepo.update` semantics. -/
def applyReviewUpdate (dto : UpdateReviewDto) (r : Review) : Review :=
  { r with rating := dto.rating.getD r.rating }

/- ### ProductsService (cache-aware variant, first document in
src/src/products/services/products/products.service.ts) -/

/-- The products cache key as `findAll` computes it: defaults already
applied to limit, page, minPrice and maxPrice by the destructuring. -/
def productsCacheKeyOf (q : FindAllProductsQueryDto) : String :=
  getProductsCacheKey q.orderByType q.orderBy (q.limit.getD 10) (q.page.getD 0)
    (q.minPrice.getD 0) (q.maxPrice.getD 99999999999999) q.categoryId q.lastCategories

/-- The price WHERE clause: `product.price BETWEEN :minPrice AND
:maxPrice` over the destructured defaults (minPrice 0, maxPrice
99999999999999). -/
def priceFiltered (db : DB) (q : FindAllProductsQueryDto) : List Product :=
  db.products.filter fun p =>
    decide (q.minPrice.getD 0 ≤ p.price) && decide (p.price ≤ q.maxPrice.getD 99999999999999)

/-- The `if (categoryId)` block: skipped when categoryId is absent or 0
(JavaScript falsiness); otherwise the category must exist (else
BadRequest) and an `andWhere` on the category id is added. -/
def categoryGate (db : DB) (categoryId : Option Nat) (rows : List Product) :
    Except Err (List Product) :=
  match categoryId with
  | none => Except.ok rows
  | some cid =>
    if cid = 0 then Except.ok rows
    else
      match CategoriesService.findById db cid with
      | none => Except.error Err.badRequest
      | some _ => Except.ok (rows.filter fun p => p.categoryId = cid)

/-- Rank used by the last-viewed-categories CASE expression: 1 when the
row's category id is in the list, otherwise NULL; DESC with NULLS LAST
orders rank-1 rows before the rest. -/
def productRank (lastCategories : List Nat) (p : Product) : Nat :=
  if p.categoryId ∈ lastCategories then 1 else 0

/-- The ordering and pagination tail of `findAll`: an explicit orderBy
column sorts by it exclusively (calling `orderByType.toUpperCase()`
unguarded, a null dereference when orderByType is absent); otherwise a
non-empty lastCategories list triggers the CASE ranking; then
OFFSET limit*page, LIMIT limit. -/
def orderAndPage (orderBy : Option ProductColumn) (orderByType : Option String)
    (lastCategories : Option (List Nat)) (limit page : Nat) (rows : List Product) :
    Except Err (List Product) :=
  match orderBy with
  | some col =>
    match orderByType with
    | none => Except.error Err.nullDeref
    | some s =>
      Except.ok (paginate limit page
        (insertionSortBy (fun a b => dirLe (parseDir s) (col.sel a) (col.sel b)) rows))
  | none =>
    match lastCategories with
    | some lc =>
      if 0 < lc.length then
        Except.ok (paginate limit page
          (insertionSortBy (fun a b => decide (productRank lc b ≤ productRank lc a)) rows))
      else Except.ok (paginate limit page rows)
    | none => Except.ok (paginate limit page rows)

/-- The database part of `ProductsService.findAll` (everything a cache
miss executes before `cache.set`): price filter, category gate, ordering,
pagination. -/
def productQueryResult (db : DB) (q : FindAllProductsQueryDto) :
    Except Err (List Product) :=
  match categoryGate db q.categoryId (priceFiltered db q) with
  | Except.error e => Except.error e
  | Except.ok rows =>
    orderAndPage q.orderBy q.orderByType q.lastCategories (q.limit.getD 10)
      (q.page.getD 0) rows

/-- ProductsService.findAll (src lines 37-111): cache read-through keyed
by the listing parameters, miss path builds and runs the query and writes
the page back with the FOUR_MINUTES TTL. -/
def ProductsService.findAll (q : FindAllProductsQueryDto) (st : St) :
    Except Err (List Product) × St :=
  match cacheGetProducts st.cache st.now (productsCacheKeyOf q) with
  | some cached => (Except.ok cached, st)
  | none =>
    match productQueryResult st.db q with
    | Except.error e => (Except.error e, st)
    | Except.ok res =>
      let c2 := cacheSet st.cache st.now (productsCacheKeyOf q) (CacheVal.products res) FOUR_MINUTES
      (Except.ok res, { st with cache := c2 })

/-- ProductsService.findById (src lines 114-141): cache read-through by
product key; a missing row throws BadRequest; a fetched row is written
back with the FOUR_MINUTES TTL. -/
def ProductsService.findById (productId : Nat) (st : St) : Except Err Product × St :=
  match cacheGetProduct st.cache st.now (getProductCacheKey productId) with
  | some p => (Except.ok p, st)
  | none =>
    match List.find? (fun p => p.id = productId) st.db.products with
    | none => (Except.error Err.badRequest, st)
    | some p =>
      let c2 := cacheSet st.cache st.now (getProductCacheKey productId) (CacheVal.product p) FOUR_MINUTES
      (Except.ok p, { st with cache := c2 })

/-- Next generated primary key for a product insert. -/
def freshProductId (products : List Product) : Nat :=
  (products.map (fun p => p.id)).foldr max 0 + 1

/-- ProductsService.create, cache-aware variant (src lines 143-171):
company of the acting user must exist (BadRequest), the referenced
category must exist (BadRequest), then a single row insert. -/
def ProductsService.create (userId : Nat) (dto : CreateProductDto) (st : St) :
    Except Err Nat × St :=
  match CompaniesService.findByUserId st.db userId with
  | none => (Except.error Err.badRequest, st)
  | some company =>
    match CategoriesService.findById st.db dto.categoryId with
    | none => (Except.error Err.badRequest, st)
    | some _ =>
      let newId := freshProductId st.db.products
      let row : Product :=
        { id := newId, price := dto.price, categoryId := dto.categoryId, companyId := company.id }
      let db1 := { st.db with products := st.db.products ++ [row] }
      (Except.ok newId, { st with db := db1 })

/-- ProductsService.update (src lines 174-209): resolve the product via
the caching findById (which throws BadRequest when absent — the
`if (!product)` that follows is dead), resolve its company, reject with
Unauthorized unless the company's owner is the acting user, then run the
row update and throw InternalServerError when no row was affected. -/
def ProductsService.update (userId productId : Nat) (dto : UpdateCompanyDto) (st : St) :
    Except Err Unit × St :=
  match ProductsService.findById productId st with
  | (Except.error e, st1) => (Except.error e, st1)
  | (Except.ok product, st1) =>
    match CompaniesService.findById st1.db product.companyId with
    | none => (Except.error Err.unauthorized, st1)
    | some company =>
      if company.userId ≠ userId then (Except.error Err.unauthorized, st1)
      else
        let affected := (st1.db.products.filter fun p => p.id = productId).length
        let rows := st1.db.products.map fun p =>
          if p.id = productId then applyProductUpdate dto p else p
        let db1 := { st1.db with products := rows }
        if affected = 0 then (Except.error Err.internalServerError, { st1 with db := db1 })
        else (Except.ok (), { st1 with db := db1 })

/-- ProductsService.delete (src lines 212-233): resolve the product via
the caching findById, then fetch the company OF THE ACTING USER
(`companiesService.findByUserId(userId)`) — dereferencing it unguarded —
and reject with Unauthorized only when that company's owner differs from
the acting user, which never happens when the user owns any company;
finally delete the row. -/
def ProductsService.delete (userId productId : Nat) (st : St) : Except Err Unit × St :=
  match ProductsService.findById productId st with
  | (Except.error e, st1) => (Except.error e, st1)
  | (Except.ok _, st1) =>
    match CompaniesService.findByUserId st1.db userId with
    | none => (Except.error Err.nullDeref, st1)
    | some company =>
      if company.userId ≠ userId then (Except.error Err.unauthorized, st1)
      else
        let rows := st1.db.products.filter fun p => ¬ p.id = productId
        let db1 := { st1.db with products := rows }
        (Except.ok (), { st1 with db := db1 })

/- ### ProductsService, second variant (second document in
src/src/products/services/products/products.service.ts: no cache, no
category handling) -/

/-- ProductsService.create, second variant (src lines 316-332): only the
acting user's company is validated; the dto is inserted with NO check
that its categoryId references an existing category. -/
def ProductsServiceSecond.create (userId : Nat) (dto : CreateProductDto) (st : St) :
    Except Err Nat × St :=
  match CompaniesService.findByUserId st.db userId with
  | none => (Except.error Err.badRequest, st)
  | some company =>
    let newId := freshProductId st.db.products
    let row : Product :=
      { id := newId, price := dto.price, categoryId := dto.categoryId, companyId := company.id }
    let db1 := { st.db with products := st.db.products ++ [row] }
    (Except.ok newId, { st with db := db1 })

/- ### ReviewsService (src/src/reviews/services/reviews/reviews.service.ts) -/

/-- The reviews listing cache key as `findByProduct` computes it. -/
def reviewsCacheKeyOf (q : FindAllReviewsQueryDto) : String :=
  getReviewsCacheKey q.productId q.orderByType q.orderBy (q.limit.getD 10) (q.page.getD 0)

/-- Key of the joined product column for a review: the value of
`product.$\x7borderBy\x7d` for the review's product row (0 when the join finds
no product, which the `product.id = :productId` WHERE precludes for rows
it returns). -/
def joinedKey (products : List Product) (col : ProductColumn) (r : Review) : Nat :=
  match List.find? (fun p => p.id = r.productId) products with
  | some p => col.sel p
  | none => 0

/-- The review listing comparator when an explicit orderBy is present:
primary `review.created_at DESC`, the joined product column added as the
secondary key. -/
def reviewLe (products : List Product) (col : ProductColumn) (d : Dir) (a b : Review) : Bool :=
  if b.createdAt < a.createdAt then true
  else if a.createdAt = b.createdAt then
    dirLe d (joinedKey products col a) (joinedKey products col b)
  else false

/-- The database part of `ReviewsService.findByProduct`: filter to the
product's reviews, ORDER BY created_at DESC (with the explicit column as
secondary key when present — `orderByType.toUpperCase()` unguarded, a
null dereference when orderByType is absent), take limit, skip
limit*page. -/
def reviewQueryResult (db : DB) (q : FindAllReviewsQueryDto) : Except Err (List Review) :=
  let base := db.reviews.filter fun r => r.productId = q.productId
  let limit := q.limit.getD 10
  let page := q.page.getD 0
  match q.orderBy with
  | none =>
    Except.ok (paginate limit page
      (insertionSortBy (fun a b => decide (b.createdAt ≤ a.createdAt)) base))
  | some col =>
    match q.orderByType with
    | none => Except.error Err.nullDeref
    | some s =>
      Except.ok (paginate limit page
        (insertionSortBy (reviewLe db.products col (parseDir s)) base))

/-- ReviewsService.findByProduct (src lines 78-118): cache read-through
keyed by the listing parameters; the miss path runs the query, writes the
result back with a TTL of 240, and returns it. -/
def ReviewsService.findByProduct (q : FindAllReviewsQueryDto) (st : St) :
    Except Err (List Review) × St :=
  match cacheGetReviews st.cache st.now (reviewsCacheKeyOf q) with
  | some cached => (Except.ok cached, st)
  | none =>
    match reviewQueryResult st.db q with
    | Except.error e => (Except.error e, st)
    | Except.ok res =>
      let c2 := cacheSet st.cache st.now (reviewsCacheKeyOf q) (CacheVal.reviews res) 240
      (Except.ok res, { st with cache := c2 })

/-- ReviewsService.findById (src lines 36-50): cache read, returning the
cached review on a hit; on a miss the repository lookup result is
returned directly — null when no such review — with no existence check
and no cache write-back. -/
def ReviewsService.findById (id : Nat) (st : St) : Except Err (Option Review) × St :=
  match cacheGetReview st.cache st.now (getReviewCacheKey id) with
  | some r => (Except.ok (some r), st)
  | none => (Except.ok (List.find? (fun r => r.id = id) st.db.reviews), st)

/-- ReviewsService.update (src lines 52-65): resolve the review via
findById (dereferencing `review.user.id` unguarded — a null dereference
when no review resolves), reject with Forbidden unless the acting user is
the author, then run the row update. -/
def ReviewsService.update (userId reviewId : Nat) (dto : UpdateReviewDto) (st : St) :
    Except Err Unit × St :=
  match ReviewsService.findById reviewId st with
  | (Except.error e, st1) => (Except.error e, st1)
  | (Except.ok none, st1) => (Except.error Err.nullDeref, st1)
  | (Except.ok (some review), st1) =>
    if review.userId ≠ userId then (Except.error Err.forbidden, st1)
    else
      let rows := st1.db.reviews.map fun r =>
        if r.id = reviewId then applyReviewUpdate dto r else r
      let db1 := { st1.db with reviews := rows }
      (Except.ok (), { st1 with db := db1 })

/-- ReviewsService.delete (src lines 67-76): same author gate as update,
then the row delete. -/
def ReviewsService.delete (userId id : Nat) (st : St) : Except Err Unit × St :=
  match ReviewsService.findById id st with
  | (Except.error e, st1) => (Except.error e, st1)
  | (Except.ok none, st1) => (Except.error Err.nullDeref, st1)
  | (Except.ok (some review), st1) =>
    if review.userId ≠ userId then (Except.error Err.forbidden, st1)
    else
      let rows := st1.db.reviews.filter fun r => ¬ r.id = id
      let db1 := { st1.db with reviews := rows }
      (Except.ok (), { st1 with db := db1 })

/- ### OrderByTypePipe (src/unnamed/part_000) -/

/-- OrderByTypePipe.transform: a falsy value (absent or empty string) is
passed through; otherwise the value must be exactly the lowercase token
asc or desc, else BadRequest. -/
def OrderByTypePipe.transform (value : Option String) : Except Err (Option String) :=
  match value with
  | none => Except.ok none
  | some s =>
    if s = "" then Except.ok (some s)
    else if s = "asc" ∨ s = "desc" then Except.ok (some s)
    else Except.error Err.badRequest

/- ### Inversion and shape lemmas -/

theorem categoryGate_error (db : DB) (cid : Option Nat) (rows : List Product) (e : Err)
    (h : categoryGate db cid rows = Except.error e) : e = Err.badRequest := by
  unfold categoryGate at h
  cases cid with
  | none => cases h
  | some c =>
    by_cases hc : c = 0
    · simp [hc] at h
    · cases hf : CategoriesService.findById db c <;> simp [hc, hf] at h
      exact h.symm

theorem mem_categoryGate (db : DB) (cid : Option Nat) (rows rows2 : List Product)
    (x : Product) (h : categoryGate db cid rows = Except.ok rows2) (hx : x ∈ rows2) :
    x ∈ rows := by
  unfold categoryGate at h
  cases cid with
  | none => cases h; exact hx
  | some c =>
    by_cases hc : c = 0
    · simp [hc] at h; subst h; exact hx
    · cases hf : CategoriesService.findById db c <;> simp [hc, hf] at h
      subst h
      exact (List.mem_filter.mp hx).1

theorem orderAndPage_error (ob : Option ProductColumn) (obt : Option String)
    (lc : Option (List Nat)) (limit page : Nat) (rows : List Product) (e : Err)
    (h : orderAndPage ob obt lc limit page rows = Except.error e) :
    e = Err.nullDeref ∧ (∃ col, ob = some col) ∧ obt = none := by
  unfold orderAndPage at h
  cases ob with
  | some col =>
    cases obt with
    | none => exact ⟨by cases h; rfl, ⟨col, rfl⟩, rfl⟩
    | some s => cases h
  | none =>
    cases lc with
    | some l =>
      by_cases h0 : 0 < l.length <;> simp [h0] at h
    | none => cases h

theorem mem_orderAndPage (ob : Option ProductColumn) (obt : Option String)
    (lc : Option (List Nat)) (limit page : Nat) (rows res : List Product)
    (x : Product) (h : orderAndPage ob obt lc limit page rows = Except.ok res)
    (hx : x ∈ res) : x ∈ rows := by
  unfold orderAndPage at h
  cases ob with
  | some col =>
    cases obt with
    | none => cases h
    | some s =>
      cases h
      exact (mem_insertionSortBy _ x rows).mp (mem_paginate _ _ _ x hx)
  | none =>
    cases lc with
    | some l =>
      by_cases h0 : 0 < l.length <;> simp [h0] at h <;> subst h
      · exact (mem_insertionSortBy _ x rows).mp (mem_paginate _ _ _ x hx)
      · exact mem_paginate _ _ _ x hx
    | none =>
      cases h
      exact mem_paginate _ _ _ x hx

theorem productQueryResult_ok_shape (db : DB) (q : FindAllProductsQueryDto)
    (res : List Product) (h : productQueryResult db q = Except.ok res) :
    ∃ rows, categoryGate db q.categoryId (priceFiltered db q) = Except.ok rows ∧
      orderAndPage q.orderBy q.orderByType q.lastCategories (q.limit.getD 10)
        (q.page.getD 0) rows = Except.ok res := by
  unfold productQueryResult at h
  cases hg : categoryGate db q.categoryId (priceFiltered db q) with
  | error e => rw [hg] at h; cases h
  | ok rows => rw [hg] at h; exact ⟨rows, rfl, h⟩

theorem productQueryResult_error_shape (db : DB) (q : FindAllProductsQueryDto) (e : Err)
    (h : productQueryResult db q = Except.error e) :
    e = Err.badRequest ∨
      (e = Err.nullDeref ∧ (∃ col, q.orderBy = some col) ∧ q.orderByType = none) := by
  unfold productQueryResult at h
  cases hg : categoryGate db q.categoryId (priceFiltered db q) with
  | error e2 =>
    rw [hg] at h
    cases h
    exact Or.inl (categoryGate_error db q.categoryId (priceFiltered db q) e hg)
  | ok rows =>
    rw [hg] at h
    exact Or.inr (orderAndPage_error _ _ _ _ _ _ _ h)

theorem findAll_ok_inv (q : FindAllProductsQueryDto) (st : St) (res : List Product)
    (st2 : St)
    (hmiss : cacheGetProducts st.cache st.now (productsCacheKeyOf q) = none)
    (hrun : ProductsService.findAll q st = (Except.ok res, st2)) :
    productQueryResult st.db q = Except.ok res ∧
    st2.cache = cacheSet st.cache st.now (productsCacheKeyOf q)
      (CacheVal.products res) FOUR_MINUTES := by
  unfold ProductsService.findAll at hrun
  rw [hmiss] at hrun
  cases hpq : productQueryResult st.db q with
  | error e => rw [hpq] at hrun; simp at hrun
  | ok r =>
    rw [hpq] at hrun
    simp only [Prod.mk.injEq, Except.ok.injEq] at hrun
    obtain ⟨h1, h2⟩ := hrun
    subst h1
    exact ⟨rfl, by rw [← h2]⟩

theorem findByProduct_ok_inv (q : FindAllReviewsQueryDto) (st : St) (res : List Review)
    (st2 : St)
    (hmiss : cacheGetReviews st.cache st.now (reviewsCacheKeyOf q) = none)
    (hrun : ReviewsService.findByProduct q st = (Except.ok res, st2)) :
    reviewQueryResult st.db q = Except.ok res ∧
    st2.cache = cacheSet st.cache st.now (reviewsCacheKeyOf q)
      (CacheVal.reviews res) 240 := by
  unfold ReviewsService.findByProduct at hrun
  rw [hmiss] at hrun
  cases hpq : reviewQueryResult st.db q with
  | error e => rw [hpq] at hrun; simp at hrun
  | ok r =>
    rw [hpq] at hrun
    simp only [Prod.mk.injEq, Except.ok.injEq] at hrun
    obtain ⟨h1, h2⟩ := hrun
    subst h1
    exact ⟨rfl, by rw [← h2]⟩

/- ### Claim C1 -/

/-- Concrete state for C1: user 1 owns company 1; product 5 belongs to
company 2, owned by user 2. -/
def stC1 : St :=
  { db := { products := [{ id := 5, price := 10, categoryId := 1, companyId := 2 }],
            reviews := [], categories := [],
            companies := [{ id := 1, userId := 1 }, { id := 2, userId := 2 }] },
    cache := [], now := 0 }

/-- C1: the delete owner gate is vacuous. Acting user 1 is not the owner
of product 5's company (user 2 is), yet `ProductsService.delete` succeeds
and removes the row, because it compares the acting user against the
company fetched BY the acting user's own id. `update` on the same state
correctly fails with Unauthorized and leaves the row in place. -/
theorem C1_delete_by_non_owner_succeeds :
    (ProductsService.delete 1 5 stC1).1 = Except.ok () ∧
    (ProductsService.delete 1 5 stC1).2.db.products = [] ∧
    (ProductsService.update 1 5 { price := some 3 } stC1).1 = Except.error Err.unauthorized ∧
    (ProductsService.update 1 5 { price := some 3 } stC1).2.db.products = stC1.db.products :=
  ⟨rfl, rfl, rfl, rfl⟩

/- ### Claim C2 -/

/-- C2: a review mutation (update or delete) by a user who is not the
review's author fails with Forbidden — no other error kind — and leaves
the reviews table unchanged. Hypotheses: the review row exists and any
cached copy under its key agrees with the row (the service itself never
writes review-by-id entries). -/
theorem C2_review_mutation_by_non_author_forbidden
    (userId reviewId : Nat) (dto : UpdateReviewDto) (st : St) (r : Review)
    (hfound : List.find? (fun x => x.id = reviewId) st.db.reviews = some r)
    (hcache : ∀ x, cacheGetReview st.cache st.now (getReviewCacheKey reviewId) = some x →
      x = r)
    (hneq : r.userId ≠ userId) :
    (ReviewsService.update userId reviewId dto st).1 = Except.error Err.forbidden ∧
    (ReviewsService.update userId reviewId dto st).2.db.reviews = st.db.reviews ∧
    (ReviewsService.delete userId reviewId st).1 = Except.error Err.forbidden ∧
    (ReviewsService.delete userId reviewId st).2.db.reviews = st.db.reviews := by
  have hfind : ReviewsService.findById reviewId st = (Except.ok (some r), st) := by
    cases h : cacheGetReview st.cache st.now (getReviewCacheKey reviewId) with
    | some x =>
      have hx := hcache x h
      subst hx
      simp [ReviewsService.findById, h]
    | none => simp [ReviewsService.findById, h, hfound]
  refine ⟨?_, ?_, ?_, ?_⟩ <;>
    simp [ReviewsService.update, ReviewsService.delete, hfind, hneq]

/-- Concrete state for the C2 witness: review 9 authored by user 4. -/
def stC2 : St :=
  { db := { products := [], categories := [], companies := [],
            reviews := [{ id := 9, productId := 1, userId := 4, createdAt := 0, rating := 5 }] },
    cache := [], now := 0 }

/-- Row of review 9 in `stC2`. -/
def rC2 : Review := { id := 9, productId := 1, userId := 4, createdAt := 0, rating := 5 }

theorem C2_witness :
    (ReviewsService.update 7 9 { rating := some 1 } stC2).1 = Except.error Err.forbidden ∧
    (ReviewsService.update 7 9 { rating := some 1 } stC2).2.db.reviews = stC2.db.reviews ∧
    (ReviewsService.delete 7 9 stC2).1 = Except.error Err.forbidden ∧
    (ReviewsService.delete 7 9 stC2).2.db.reviews = stC2.db.reviews :=
  C2_review_mutation_by_non_author_forbidden 7 9 { rating := some 1 } stC2 rC2 rfl
    (fun x hx => nomatch hx) (by decide)

/- ### Claim C5 -/

/-- C5 counterexample: the claim says `DESC` (uppercase) is accepted, but
the pipe's membership test `['asc', 'desc'].includes(value)` is
case-sensitive, so `DESC` is rejected with BadRequest. -/
theorem C5_counterexample :
    OrderByTypePipe.transform (some "DESC") = Except.error Err.badRequest := by
  rfl

/-- C5 (amended): `orderByType` is validated case-sensitively — a value
is accepted (passed through unchanged) iff it is absent, the empty
string, or exactly the lowercase token asc or desc; every other token is
rejected with BadRequest. -/
theorem C5_orderByType_case_sensitive (v : Option String) :
    (OrderByTypePipe.transform v = Except.ok v ↔
      v = none ∨ v = some "" ∨ v = some "asc" ∨ v = some "desc") ∧
    (∀ s, v = some s → s ≠ "" → s ≠ "asc" → s ≠ "desc" →
      OrderByTypePipe.transform v = Except.error Err.badRequest) := by
  constructor
  · cases v with
    | none => simp [OrderByTypePipe.transform]
    | some s =>
      by_cases h1 : s = ""
      · simp [OrderByTypePipe.transform, h1]
      · by_cases h2 : s = "asc"
        · simp [OrderByTypePipe.transform, h1, h2]
        · by_cases h3 : s = "desc" <;> simp [OrderByTypePipe.transform, h1, h2, h3]
  · intro s hv h1 h2 h3
    subst hv
    simp [OrderByTypePipe.transform, h1, h2, h3]

theorem C5_witness :
    OrderByTypePipe.transform (some "Asc") = Except.error Err.badRequest :=
  (C5_orderByType_case_sensitive (some "Asc")).2 "Asc" rfl (by decide) (by decide) (by decide)

/- ### Claim C6 -/

/-- C6 (amended): through the cache-aware `ProductsService.create`, a
missing referenced category fails with BadRequest and no row is inserted —
the category lookup precedes the insert. (The second service variant has
no such validation; see the counterexample.) -/
theorem C6_create_missing_category_rejected
    (userId : Nat) (dto : CreateProductDto) (st : St)
    (hcat : CategoriesService.findById st.db dto.categoryId = none) :
    (ProductsService.create userId dto st).1 = Except.error Err.badRequest ∧
    (ProductsService.create userId dto st).2.db.products = st.db.products := by
  cases h : CompaniesService.findByUserId st.db userId <;>
    simp [ProductsService.create, h, hcat]

/-- Concrete state for C6: user 1 owns company 1; no categories exist. -/
def stC6 : St :=
  { db := { products := [], reviews := [], categories := [],
            companies := [{ id := 1, userId := 1 }] },
    cache := [], now := 0 }

/-- C6 counterexample: the second (non-cached) `ProductsService.create`
variant performs no category-existence check: with no category 7 in the
store, the create succeeds and a product row referencing category 7 is
inserted — no BadRequest. -/
theorem C6_counterexample :
    CategoriesService.findById stC6.db 7 = none ∧
    (ProductsServiceSecond.create 1 { price := 5, categoryId := 7 } stC6).1 = Except.ok 1 ∧
    (ProductsServiceSecond.create 1 { price := 5, categoryId := 7 } stC6).2.db.products =
      [{ id := 1, price := 5, categoryId := 7, companyId := 1 }] :=
  ⟨rfl, rfl, rfl⟩

theorem C6_witness :
    (ProductsService.create 1 { price := 5, categoryId := 7 } stC6).1 =
      Except.error Err.badRequest ∧
    (ProductsService.create 1 { price := 5, categoryId := 7 } stC6).2.db.products =
      stC6.db.products :=
  C6_create_missing_category_rejected 1 { price := 5, categoryId := 7 } stC6 rfl

/- ### Claim C10 -/

/-- C10: `ReviewsService.findById` never raises: it leaves the state
untouched (in particular, no cache write-back on a miss) and on a miss
returns the repository lookup directly — none when no review exists. In
contrast `ProductsService.findById` throws BadRequest for a missing id
and writes a fetched row back to the cache on a miss. -/
theorem C10_reviews_findById_total_no_writeback :
    (∀ id st, (ReviewsService.findById id st).2 = st) ∧
    (∀ id st, cacheGetReview st.cache st.now (getReviewCacheKey id) = none →
      (ReviewsService.findById id st).1 =
        Except.ok (List.find? (fun r => r.id = id) st.db.reviews)) ∧
    (∀ id st, cacheGetProduct st.cache st.now (getProductCacheKey id) = none →
      List.find? (fun p => p.id = id) st.db.products = none →
      (ProductsService.findById id st).1 = Except.error Err.badRequest) ∧
    (∀ id st p, cacheGetProduct st.cache st.now (getProductCacheKey id) = none →
      List.find? (fun x => x.id = id) st.db.products = some p →
      (ProductsService.findById id st).2.cache =
        cacheSet st.cache st.now (getProductCacheKey id) (CacheVal.product p) FOUR_MINUTES) := by
  refine ⟨?_, ?_, ?_, ?_⟩
  · intro id st
    cases h : cacheGetReview st.cache st.now (getReviewCacheKey id) <;>
      simp [ReviewsService.findById, h]
  · intro id st h
    simp [ReviewsService.findById, h]
  · intro id st h1 h2
    simp [ProductsService.findById, h1, h2]
  · intro id st p h1 h2
    simp [ProductsService.findById, h1, h2]

/-- Concrete state for the C10 witness: no review 3; product 3 exists. -/
def stC10 : St :=
  { db := { products := [{ id := 3, price := 8, categoryId := 1, companyId := 1 }],
            reviews := [], categories := [], companies := [] },
    cache := [], now := 0 }

theorem C10_witness :
    (ReviewsService.findById 3 stC10).2 = stC10 ∧
    (ReviewsService.findById 3 stC10).1 = Except.ok none ∧
    (ReviewsService.findById 4 stC10).1 = Except.ok none ∧
    (ProductsService.findById 4 stC10).1 = Except.error Err.badRequest ∧
    (ProductsService.findById 3 stC10).2.cache =
      cacheSet stC10.cache stC10.now (getProductCacheKey 3)
        (CacheVal.product { id := 3, price := 8, categoryId := 1, companyId := 1 })
        FOUR_MINUTES :=
  ⟨(C10_reviews_findById_total_no_writeback.1 3 stC10),
   (C10_reviews_findById_total_no_writeback.2.1 3 stC10 rfl),
   (C10_reviews_findById_total_no_writeback.2.1 4 stC10 rfl),
   (C10_reviews_findById_total_no_writeback.2.2.1 4 stC10 rfl rfl),
   (C10_reviews_findById_total_no_writeback.2.2.2 3 stC10
     { id := 3, price := 8, categoryId := 1, companyId := 1 } rfl rfl)⟩

/- ### Claim C3 -/

theorem orderAndPage_lastCats (lc : List Nat) (hlen : 0 < lc.length)
    (obt : Option String) (limit page : Nat) (rows : List Product) :
    orderAndPage none obt (some lc) limit page rows =
      Except.ok (paginate limit page
        (insertionSortBy (fun a b => decide (productRank lc b ≤ productRank lc a)) rows)) := by
  unfold orderAndPage
  simp [hlen]

theorem productRank_imp (lc : List Nat) (a b : Product)
    (h : productRank lc b ≤ productRank lc a) (hb : b.categoryId ∈ lc) :
    a.categoryId ∈ lc := by
  unfold productRank at h
  by_cases ha : a.categoryId ∈ lc
  · exact ha
  · simp [hb, ha] at h

/-- C3: on a cache miss of the product listing, an explicit orderBy
column sorts the returned page by that column and direction exclusively;
with no explicit orderBy and a non-empty lastCategories list, every
returned row whose category id is in the list precedes every returned
row whose category id is not. -/
theorem C3_listing_order (q : FindAllProductsQueryDto) (st : St) (res : List Product)
    (st2 : St)
    (hmiss : cacheGetProducts st.cache st.now (productsCacheKeyOf q) = none)
    (hrun : ProductsService.findAll q st = (Except.ok res, st2)) :
    (∀ col s, q.orderBy = some col → q.orderByType = some s →
      res.Pairwise fun a b => dirLe (parseDir s) (col.sel a) (col.sel b) = true) ∧
    (∀ lc, q.orderBy = none → q.lastCategories = some lc → 0 < lc.length →
      res.Pairwise fun a b => b.categoryId ∈ lc → a.categoryId ∈ lc) := by
  obtain ⟨hq, -⟩ := findAll_ok_inv q st res st2 hmiss hrun
  obtain ⟨rows, hg, hop⟩ := productQueryResult_ok_shape st.db q res hq
  constructor
  · intro col s hcol hs
    rw [hcol, hs] at hop
    unfold orderAndPage at hop
    cases hop
    exact pairwise_paginate _ _ _
      (pairwise_insertionSortBy _
        (fun a b => dirLe_total (parseDir s) (col.sel a) (col.sel b))
        (fun a b c h1 h2 => dirLe_trans (parseDir s) (col.sel a) (col.sel b) (col.sel c) h1 h2)
        rows)
  · intro lc hob hlc hlen
    rw [hob, hlc, orderAndPage_lastCats lc hlen q.orderByType _ _ rows] at hop
    cases hop
    refine List.Pairwise.imp ?_
      (pairwise_paginate _ _ _
        (pairwise_insertionSortBy _
          (fun a b => by
            simp only [decide_eq_true_eq]
            exact Nat.le_total (productRank lc b) (productRank lc a))
          (fun a b c h1 h2 => by
            simp only [decide_eq_true_eq] at *
            omega)
          rows))
    intro a b h hb
    exact productRank_imp lc a b (of_decide_eq_true h) hb

/-- Concrete inputs for the C3 witness: spec section 8's example — price
filter absent, no orderBy, lastCategories = [3]; a category-3 product
priced 20 must precede a category-5 product priced 15. -/
def stC3 : St :=
  { db := { products := [{ id := 1, price := 15, categoryId := 5, companyId := 1 },
                         { id := 2, price := 20, categoryId := 3, companyId := 1 }],
            reviews := [], categories := [], companies := [] },
    cache := [], now := 0 }

/-- Query for the C3 witness. -/
def qC3 : FindAllProductsQueryDto :=
  { orderBy := none, orderByType := none, limit := none, minPrice := none,
    maxPrice := none, categoryId := none, lastCategories := some [3], page := none }

/-- Page returned for `qC3` on `stC3`: the category-3 row first. -/
def resC3 : List Product :=
  [{ id := 2, price := 20, categoryId := 3, companyId := 1 },
   { id := 1, price := 15, categoryId := 5, companyId := 1 }]

theorem C3_witness :
    (ProductsService.findAll qC3 stC3).1 = Except.ok resC3 ∧
    resC3.Pairwise (fun a b => b.categoryId ∈ [3] → a.categoryId ∈ [3]) :=
  ⟨rfl,
   (C3_listing_order qC3 stC3 resC3 ((ProductsService.findAll qC3 stC3).2) rfl rfl).2
     [3] rfl rfl (by decide)⟩

/- ### Claim C7 -/

/-- C7 (amended): on a cache miss, every product in the returned page has
a price within the closed interval of the effective bounds; an absent
minPrice defaults to 0 and an absent maxPrice defaults to the finite
constant 99999999999999 (not unbounded). -/
theorem C7_price_bounds (q : FindAllProductsQueryDto) (st : St) (res : List Product)
    (st2 : St)
    (hminmax : q.minPrice.getD 0 ≤ q.maxPrice.getD 99999999999999)
    (hmiss : cacheGetProducts st.cache st.now (productsCacheKeyOf q) = none)
    (hrun : ProductsService.findAll q st = (Except.ok res, st2)) :
    ∀ p ∈ res, q.minPrice.getD 0 ≤ p.price ∧ p.price ≤ q.maxPrice.getD 99999999999999 := by
  obtain ⟨hq, -⟩ := findAll_ok_inv q st res st2 hmiss hrun
  obtain ⟨rows, hg, hop⟩ := productQueryResult_ok_shape st.db q res hq
  intro p hp
  have h1 : p ∈ rows := mem_orderAndPage _ _ _ _ _ _ _ p hop hp
  have h2 : p ∈ priceFiltered st.db q := mem_categoryGate _ _ _ _ p hg h1
  simp only [priceFiltered, List.mem_filter, Bool.and_eq_true, decide_eq_true_eq] at h2
  exact ⟨h2.2.1, h2.2.2⟩

/-- Concrete state for the C7 counterexample: a single product priced
100000000000000, one above the hard-coded default maximum. -/
def stC7 : St :=
  { db := { products := [{ id := 1, price := 100000000000000, categoryId := 1, companyId := 1 }],
            reviews := [], categories := [], companies := [] },
    cache := [], now := 0 }

/-- Query with every bound absent for the C7 counterexample. -/
def qC7 : FindAllProductsQueryDto :=
  { orderBy := none, orderByType := none, limit := none, minPrice := none,
    maxPrice := none, categoryId := none, lastCategories := none, page := none }

/-- C7 counterexample: with both bounds absent the claim's default is
max unbounded, under which the single product (price 100000000000000,
well within the first page of 10) would be returned; the code instead
bounds max at 99999999999999 and returns the empty page. -/
theorem C7_counterexample :
    qC7.minPrice = none ∧ qC7.maxPrice = none ∧
    stC7.db.products =
      [{ id := 1, price := 100000000000000, categoryId := 1, companyId := 1 }] ∧
    (ProductsService.findAll qC7 stC7).1 = Except.ok [] :=
  ⟨rfl, rfl, rfl, rfl⟩

/-- Concrete inputs for the C7 witness. -/
def stC7w : St :=
  { db := { products := [{ id := 1, price := 4, categoryId := 1, companyId := 1 },
                         { id := 2, price := 9, categoryId := 1, companyId := 1 },
                         { id := 3, price := 30, categoryId := 1, companyId := 1 }],
            reviews := [], categories := [], companies := [] },
    cache := [], now := 0 }

/-- Query with bounds [5, 20] for the C7 witness. -/
def qC7w : FindAllProductsQueryDto :=
  { orderBy := none, orderByType := none, limit := none, minPrice := some 5,
    maxPrice := some 20, categoryId := none, lastCategories := none, page := none }

theorem C7_witness :
    qC7w.minPrice.getD 0 ≤
      ({ id := 2, price := 9, categoryId := 1, companyId := 1 } : Product).price ∧
    ({ id := 2, price := 9, categoryId := 1, companyId := 1 } : Product).price ≤
      qC7w.maxPrice.getD 99999999999999 :=
  C7_price_bounds qC7w stC7w
    [{ id := 2, price := 9, categoryId := 1, companyId := 1 }]
    ((ProductsService.findAll qC7w stC7w).2) (by decide) rfl rfl
    { id := 2, price := 9, categoryId := 1, companyId := 1 } (by decide)

/- ### Claim C4 -/

theorem cacheGetProducts_cacheSet_same (c : Cache) (now : Nat) (k : String)
    (l : List Product) (ttl t : Nat) (ht : t < now + ttl) :
    cacheGetProducts (cacheSet c now k (CacheVal.products l) ttl) t k = some l := by
  simp [cacheGetProducts, cacheGet_cacheSet_same, ht]

theorem cacheGetReviews_cacheSet_same (c : Cache) (now : Nat) (k : String)
    (l : List Review) (ttl t : Nat) (ht : t < now + ttl) :
    cacheGetReviews (cacheSet c now k (CacheVal.reviews l) ttl) t k = some l := by
  simp [cacheGetReviews, cacheGet_cacheSet_same, ht]

/-- C4: for product and review listings alike, a first call on a cache
miss that succeeds writes its page under the derived key; a second call
with identical parameters at any instant within the TTL window returns
exactly that page, straight from the cache entry the first call wrote,
whatever the database holds by then. -/
theorem C4_ttl_window_identical_results :
    (∀ q st res st2 db2 t,
      cacheGetProducts st.cache st.now (productsCacheKeyOf q) = none →
      ProductsService.findAll q st = (Except.ok res, st2) →
      t < st.now + FOUR_MINUTES →
      (ProductsService.findAll q { db := db2, cache := st2.cache, now := t }).1 =
        Except.ok res) ∧
    (∀ q st res st2 db2 t,
      cacheGetReviews st.cache st.now (reviewsCacheKeyOf q) = none →
      ReviewsService.findByProduct q st = (Except.ok res, st2) →
      t < st.now + 240 →
      (ReviewsService.findByProduct q { db := db2, cache := st2.cache, now := t }).1 =
        Except.ok res) := by
  constructor
  · intro q st res st2 db2 t hmiss hrun ht
    obtain ⟨-, hc⟩ := findAll_ok_inv q st res st2 hmiss hrun
    have hget : cacheGetProducts st2.cache t (productsCacheKeyOf q) = some res := by
      rw [hc]
      exact cacheGetProducts_cacheSet_same _ _ _ _ _ _ ht
    simp [ProductsService.findAll, hget]
  · intro q st res st2 db2 t hmiss hrun ht
    obtain ⟨-, hc⟩ := findByProduct_ok_inv q st res st2 hmiss hrun
    have hget : cacheGetReviews st2.cache t (reviewsCacheKeyOf q) = some res := by
      rw [hc]
      exact cacheGetReviews_cacheSet_same _ _ _ _ _ _ ht
    simp [ReviewsService.findByProduct, hget]

/-- First-call state for the C4 witness. -/
def stC4 : St :=
  { db := { products := [{ id := 1, price := 5, categoryId := 1, companyId := 1 }],
            reviews := [{ id := 1, productId := 1, userId := 1, createdAt := 3, rating := 4 }],
            categories := [], companies := [] },
    cache := [], now := 0 }

/-- Database emptied between the two C4 calls. -/
def dbC4b : DB := { products := [], reviews := [], categories := [], companies := [] }

/-- Product listing query for the C4 witness. -/
def qC4 : FindAllProductsQueryDto :=
  { orderBy := none, orderByType := none, limit := none, minPrice := none,
    maxPrice := none, categoryId := none, lastCategories := none, page := none }

/-- Review listing query for the C4 witness. -/
def qC4r : FindAllReviewsQueryDto :=
  { orderBy := none, orderByType := none, limit := none, page := none, productId := 1 }

theorem C4_witness :
    (ProductsService.findAll qC4
      { db := dbC4b, cache := ((ProductsService.findAll qC4 stC4).2).cache, now := 100 }).1 =
      Except.ok [{ id := 1, price := 5, categoryId := 1, companyId := 1 }] ∧
    (ReviewsService.findByProduct qC4r
      { db := dbC4b, cache := ((ReviewsService.findByProduct qC4r stC4).2).cache, now := 100 }).1 =
      Except.ok [{ id := 1, productId := 1, userId := 1, createdAt := 3, rating := 4 }] :=
  ⟨C4_ttl_window_identical_results.1 qC4 stC4
      [{ id := 1, price := 5, categoryId := 1, companyId := 1 }]
      ((ProductsService.findAll qC4 stC4).2) dbC4b 100 rfl rfl (by decide),
   C4_ttl_window_identical_results.2 qC4r stC4
      [{ id := 1, productId := 1, userId := 1, createdAt := 3, rating := 4 }]
      ((ReviewsService.findByProduct qC4r stC4).2) dbC4b 100 rfl rfl (by decide)⟩

/- ### Claim C8 -/

theorem reviewLe_true_iff (ps : List Product) (col : ProductColumn) (d : Dir)
    (a b : Review) :
    reviewLe ps col d a b = true ↔
      b.createdAt < a.createdAt ∨
        (a.createdAt = b.createdAt ∧
          dirLe d (joinedKey ps col a) (joinedKey ps col b) = true) := by
  unfold reviewLe
  by_cases h1 : b.createdAt < a.createdAt
  · simp [h1]
  · by_cases h2 : a.createdAt = b.createdAt
    · simp [h1, h2]
    · simp [h1, h2]

theorem reviewLe_total (ps : List Product) (col : ProductColumn) (d : Dir)
    (a b : Review) :
    reviewLe ps col d a b = true ∨ reviewLe ps col d b a = true := by
  rw [reviewLe_true_iff, reviewLe_true_iff]
  rcases Nat.lt_trichotomy b.createdAt a.createdAt with h | h | h
  · exact Or.inl (Or.inl h)
  · rcases dirLe_total d (joinedKey ps col a) (joinedKey ps col b) with hd | hd
    · exact Or.inl (Or.inr ⟨h.symm, hd⟩)
    · exact Or.inr (Or.inr ⟨h, hd⟩)
  · exact Or.inr (Or.inl h)

theorem reviewLe_trans (ps : List Product) (col : ProductColumn) (d : Dir)
    (a b c : Review) (h1 : reviewLe ps col d a b = true)
    (h2 : reviewLe ps col d b c = true) : reviewLe ps col d a c = true := by
  rw [reviewLe_true_iff] at h1 h2 ⊢
  rcases h1 with h1 | ⟨e1, d1⟩ <;> rcases h2 with h2 | ⟨e2, d2⟩
  · exact Or.inl (by omega)
  · exact Or.inl (by omega)
  · exact Or.inl (by omega)
  · exact Or.inr ⟨by omega, dirLe_trans d _ _ _ d1 d2⟩

theorem reviewLe_primary (ps : List Product) (col : ProductColumn) (d : Dir)
    (a b : Review) (h : reviewLe ps col d a b = true) :
    b.createdAt ≤ a.createdAt := by
  rw [reviewLe_true_iff] at h
  rcases h with h | ⟨e, -⟩ <;> omega

theorem reviewLe_secondary (ps : List Product) (col : ProductColumn) (d : Dir)
    (a b : Review) (h : reviewLe ps col d a b = true)
    (he : a.createdAt = b.createdAt) :
    dirLe d (joinedKey ps col a) (joinedKey ps col b) = true := by
  rw [reviewLe_true_iff] at h
  rcases h with h | ⟨-, hd⟩
  · omega
  · exact hd

/-- C8: on a cache miss, the review listing is always primary-sorted by
creation time descending; an explicit orderBy column only refines the
order within rows of equal creation time (as the secondary key on the
joined product column). -/
theorem C8_reviews_sorted (q : FindAllReviewsQueryDto) (st : St) (res : List Review)
    (st2 : St)
    (hmiss : cacheGetReviews st.cache st.now (reviewsCacheKeyOf q) = none)
    (hrun : ReviewsService.findByProduct q st = (Except.ok res, st2)) :
    res.Pairwise (fun a b => b.createdAt ≤ a.createdAt) ∧
    (∀ col s, q.orderBy = some col → q.orderByType = some s →
      res.Pairwise fun a b => a.createdAt = b.createdAt →
        dirLe (parseDir s) (joinedKey st.db.products col a)
          (joinedKey st.db.products col b) = true) := by
  obtain ⟨hq, -⟩ := findByProduct_ok_inv q st res st2 hmiss hrun
  unfold reviewQueryResult at hq
  cases hob : q.orderBy with
  | none =>
    rw [hob] at hq
    cases hq
    constructor
    · refine List.Pairwise.imp (fun h => of_decide_eq_true h) ?_
      refine pairwise_paginate _ _ _ (pairwise_insertionSortBy _ ?_ ?_ _)
      · intro a b
        simp only [decide_eq_true_eq]
        exact Nat.le_total b.createdAt a.createdAt
      · intro a b c h1 h2
        simp only [decide_eq_true_eq] at *
        omega
    · intro col s hcol hs
      cases hcol
  | some col0 =>
    rw [hob] at hq
    cases hot : q.orderByType with
    | none =>
      rw [hot] at hq
      cases hq
    | some s0 =>
      rw [hot] at hq
      cases hq
      have hpw := pairwise_paginate (q.limit.getD 10) (q.page.getD 0) _
        (pairwise_insertionSortBy (reviewLe st.db.products col0 (parseDir s0))
          (fun a b => reviewLe_total st.db.products col0 (parseDir s0) a b)
          (fun a b c h1 h2 => reviewLe_trans st.db.products col0 (parseDir s0) a b c h1 h2)
          (st.db.reviews.filter fun r => r.productId = q.productId))
      constructor
      · exact List.Pairwise.imp
          (fun h => reviewLe_primary st.db.products col0 (parseDir s0) _ _ h) hpw
      · intro col s hcol hs
        cases hcol
        cases hs
        exact List.Pairwise.imp
          (fun h he => reviewLe_secondary st.db.products col0 (parseDir s0) _ _ h he) hpw

/-- Concrete state for the C8 witness: two reviews of product 1 with
creation times 3 and 9. -/
def stC8 : St :=
  { db := { products := [{ id := 1, price := 5, categoryId := 1, companyId := 1 }],
            reviews := [{ id := 1, productId := 1, userId := 1, createdAt := 3, rating := 4 },
                        { id := 2, productId := 1, userId := 2, createdAt := 9, rating := 2 }],
            categories := [], companies := [] },
    cache := [], now := 0 }

/-- Review listing query for the C8 witness. -/
def qC8 : FindAllReviewsQueryDto :=
  { orderBy := none, orderByType := none, limit := none, page := none, productId := 1 }

/-- Page returned for `qC8` on `stC8`: newest review first. -/
def resC8 : List Review :=
  [{ id := 2, productId := 1, userId := 2, createdAt := 9, rating := 2 },
   { id := 1, productId := 1, userId := 1, createdAt := 3, rating := 4 }]

theorem C8_witness :
    (ReviewsService.findByProduct qC8 stC8).1 = Except.ok resC8 ∧
    resC8.Pairwise (fun a b => b.createdAt ≤ a.createdAt) :=
  ⟨rfl,
   (C8_reviews_sorted qC8 stC8 resC8 ((ReviewsService.findByProduct qC8 stC8).2)
     rfl rfl).1⟩

/- ### Claim C9 -/

/-- C9: in `ProductsService.findAll` the explicit-orderBy branch calls
`orderByType.toUpperCase()` unguarded: on a cache miss with orderBy
present, orderByType absent (and no category filter in play) the call
ends in the null-dereference failure and no result is produced; whenever
orderBy implies orderByType is present, that failure is impossible. -/
theorem C9_orderBy_requires_orderByType :
    (∀ q st col, q.orderBy = some col → q.orderByType = none → q.categoryId = none →
      cacheGetProducts st.cache st.now (productsCacheKeyOf q) = none →
      ProductsService.findAll q st = (Except.error Err.nullDeref, st)) ∧
    (∀ q st, (∀ col, q.orderBy = some col → q.orderByType ≠ none) →
      (ProductsService.findAll q st).1 ≠ Except.error Err.nullDeref) := by
  constructor
  · intro q st col hcol hot hcid hmiss
    have hg : categoryGate st.db q.categoryId (priceFiltered st.db q) =
        Except.ok (priceFiltered st.db q) := by
      rw [hcid]
      rfl
    have hoa : orderAndPage q.orderBy q.orderByType q.lastCategories (q.limit.getD 10)
        (q.page.getD 0) (priceFiltered st.db q) = Except.error Err.nullDeref := by
      rw [hcol, hot]
      rfl
    have hq : productQueryResult st.db q = Except.error Err.nullDeref := by
      unfold productQueryResult
      rw [hg]
      exact hoa
    simp [ProductsService.findAll, hmiss, hq]
  · intro q st h
    cases hm : cacheGetProducts st.cache st.now (productsCacheKeyOf q) with
    | some l => simp [ProductsService.findAll, hm]
    | none =>
      cases hq : productQueryResult st.db q with
      | ok r => simp [ProductsService.findAll, hm, hq]
      | error e =>
        have he : e ≠ Err.nullDeref := by
          intro hee
          subst hee
          rcases productQueryResult_error_shape st.db q _ hq with hbad | ⟨-, ⟨col, hcol⟩, hot⟩
          · cases hbad
          · exact h col hcol hot
        simp [ProductsService.findAll, hm, hq]
        exact he

/-- Query with orderBy present but orderByType absent, first C9 witness. -/
def qC9 : FindAllProductsQueryDto :=
  { orderBy := some ProductColumn.id, orderByType := none, limit := none, minPrice := none,
    maxPrice := none, categoryId := none, lastCategories := none, page := none }

/-- Query with both orderBy and orderByType present, second C9 witness. -/
def qC9b : FindAllProductsQueryDto :=
  { orderBy := some ProductColumn.id, orderByType := some "asc", limit := none,
    minPrice := none, maxPrice := none, categoryId := none, lastCategories := none,
    page := none }

/-- Empty state for the C9 witness. -/
def stC9 : St :=
  { db := { products := [], reviews := [], categories := [], companies := [] },
    cache := [], now := 0 }

theorem C9_witness :
    ProductsService.findAll qC9 stC9 = (Except.error Err.nullDeref, stC9) ∧
    (ProductsService.findAll qC9b stC9).1 ≠ Except.error Err.nullDeref :=
  ⟨C9_orderBy_requires_orderByType.1 qC9 stC9 ProductColumn.id rfl rfl rfl rfl,
   C9_orderBy_requires_orderByType.2 qC9b stC9 (fun col hcol hn => nomatch hn)⟩
